import Mathlib

/-!
Verification of the Muninn policy engine, task engine and approval manager
(`src/core/policy-engine.ts`, `src/memory/embeddings.ts` approval section)
against the natural-language specification.

The TypeScript classes are shallowly embedded: pure methods become Lean
functions, the mutable engine state (`taskMode`, the approval `pending` map,
a task plan's step statuses) becomes explicit state passing.  Library
behaviour that is not part of the repository (node `path.resolve`/`normalize`,
`fs.realpathSync`, `os.homedir`) is abstracted into a `PathEnv` record of
functions, so theorems quantify over every possible filesystem / symlink
configuration.  `new URL` is modelled by a concrete parser covering the URL
shapes exercised by the policy checks.  Timestamps, logging and the Telegram
transport are elided: they do not influence any decision value.
-/

namespace Muninn

/-- Substring test, the Lean counterpart of JavaScript `String.includes`. -/
def strContains (hay needle : String) : Bool :=
  (List.range (hay.length + 1)).any fun i => needle.data.isPrefixOf (hay.data.drop i)

/-- `String.startsWith`, phrased over character lists so it reduces. -/
def strStartsWith (s pre : String) : Bool := pre.data.isPrefixOf s.data

/-- `String.endsWith`, phrased over character lists so it reduces. -/
def strEndsWith (s suf : String) : Bool := suf.data.isSuffixOf s.data

/-- JavaScript `trim` (the whitespace of the commands under scrutiny is
ASCII). -/
def strTrim (s : String) : String :=
  String.mk (((s.data.dropWhile Char.isWhitespace).reverse.dropWhile Char.isWhitespace).reverse)

/-- `toLowerCase`, phrased over character lists so it reduces. -/
def strToLower (s : String) : String := String.mk (s.data.map Char.toLower)

/-- The segment after the last occurrence of `sep` (the whole list when
`sep` does not occur): `split(sep).pop()`. -/
def afterLastChar (sep : Char) (l : List Char) : List Char :=
  (l.reverse.takeWhile fun c => c != sep).reverse

/-- `RiskLevel` from `src/core/types.ts`. -/
inductive RiskLevel
  | safe
  | low
  | medium
  | high
  | blocked
  deriving DecidableEq, Repr

/-- `PolicyDecision` from `src/core/types.ts`. -/
structure PolicyDecision where
  allowed : Bool
  risk : RiskLevel
  reason : String
  requiresApproval : Bool
  deriving DecidableEq, Repr

/-- `PolicyConfig` from `src/core/types.ts`.  The optional
`risk_overrides : Record<string, RiskLevel>` becomes an association list
(`[]` models an absent / empty record). -/
structure PolicyConfig where
  allowed_dirs : List String
  blocked_commands : List String
  shell_enabled : Bool
  browser_enabled : Bool
  require_approval_for_writes : Bool
  risk_overrides : List (String × RiskLevel) := []
  deriving Repr

/-- Tool arguments: the string-valued entries of the
`Record<string, unknown>` argument object. -/
abbrev Args := List (String × String)

/-- `String(args.k || '')`: a missing key and an empty (falsy) value both
yield `""`. -/
def getArg (args : Args) (k : String) : String :=
  ((args.find? fun kv => kv.1 == k).map fun kv => kv.2).getD ""

/-- First truthy value, as in `args.path || args.from || args.savePath || ''`. -/
def firstNonEmpty : List String → String
  | [] => ""
  | s :: rest => if s = "" then firstNonEmpty rest else s

/-- Abstraction of the node path / filesystem libraries used by the engine:
`homedir()`, `resolve(normalize(·))`, and `realpathSync` (`none` models the
call throwing because the file does not exist). -/
structure PathEnv where
  homedir : String
  resolveAbs : String → String
  realpath : String → Option String

/-- `path.replace(/^~/, homedir())`: expand a leading tilde only. -/
def expandHome (home p : String) : String :=
  if strStartsWith p "~" then home ++ String.mk (p.data.drop 1) else p

/-- `dir.replace('~', homedir())`: string replace of the first occurrence
of `~` anywhere (used in the constructor, unlike the anchored regex). -/
def replaceFirstTildeAux (home : String) : List Char → List Char
  | [] => []
  | '~' :: rest => home.data ++ rest
  | c :: rest => c :: replaceFirstTildeAux home rest

def replaceFirstTilde (home s : String) : String :=
  String.mk (replaceFirstTildeAux home s.data)

/-- `PolicyEngine.resolvePath`: expand `~`, resolve to absolute, follow
symlinks, falling back to the resolved path when `realpathSync` throws. -/
def resolvePath (env : PathEnv) (p : String) : String :=
  let resolved := env.resolveAbs (expandHome env.homedir p)
  (env.realpath resolved).getD resolved

/-- `BLOCKED_PATH_PATTERNS`, each regex rendered as the string test it
performs (`^…` prefixes, bare fragments as substring tests, `\.env$` as a
suffix test). -/
def isBlockedPath (absPath : String) : Bool :=
  strStartsWith absPath "/etc" ||
  strStartsWith absPath "/System" ||
  strStartsWith absPath "/usr/bin" ||
  strStartsWith absPath "/usr/sbin" ||
  strStartsWith absPath "/sbin" ||
  strStartsWith absPath "/boot" ||
  strStartsWith absPath "/proc" ||
  strStartsWith absPath "/sys" ||
  strStartsWith absPath "/dev" ||
  strContains absPath ".ssh" ||
  strContains absPath ".gnupg" ||
  strContains absPath ".aws/credentials" ||
  strEndsWith absPath ".env" ||
  strContains absPath ".env." ||
  strContains absPath "node_modules" ||
  strContains absPath ".git/"

/-- `BLOCKED_COMMANDS` (the middle entry is the fork-bomb literal). -/
def BLOCKED_COMMANDS : List String :=
  ["rm -rf /", "rm -rf ~", "rm -rf *", "sudo", "su ", "shutdown", "reboot",
   "halt", "poweroff", "mkfs", "dd if=", "format", ":()\x7b:|:&\x7d;:",
   "chmod -R 777", "chown -R", "passwd", "useradd", "userdel", "visudo",
   "> /dev/sda", "curl | sh", "curl | bash", "wget | sh", "wget | bash",
   "eval(", "nc -l", "ncat -l", "python -m http.server", "npm publish",
   "git push --force"]

def SAFE_READ_EXTENSIONS : List String :=
  [".txt", ".md", ".json", ".yaml", ".yml", ".toml",
   ".ts", ".js", ".py", ".rs", ".go", ".java", ".c", ".h",
   ".css", ".html", ".svg", ".xml",
   ".csv", ".tsv", ".log",
   ".sh", ".bash", ".zsh",
   ".conf", ".cfg", ".ini"]

def SAFE_COMMANDS : List String :=
  ["ls", "pwd", "whoami", "date", "cal",
   "cat", "head", "tail", "wc", "sort", "uniq",
   "find", "grep", "rg", "fd",
   "echo", "printf",
   "node --version", "npm --version", "git --version",
   "git status", "git log", "git diff", "git branch",
   "tree",
   "df -h", "du -sh",
   "uname"]

/-- `TaskModeScope`: the engine's `taskMode` field when non-null. -/
structure TaskModeScope where
  active : Bool
  workingDir : String
  taskId : String
  deriving Repr

/-- The `PolicyEngine` instance state.  `resolvedAllowedDirs` is computed by
the constructor; `taskMode` starts out `null`. -/
structure PolicyEngine where
  config : PolicyConfig
  dataDir : String
  resolvedAllowedDirs : List String
  taskMode : Option TaskModeScope
  deriving Repr

/-- The `PolicyEngine` constructor. -/
def mkPolicyEngine (env : PathEnv) (config : PolicyConfig) (dataDir : String) :
    PolicyEngine :=
  { config := config
    dataDir := dataDir
    resolvedAllowedDirs :=
      config.allowed_dirs.map fun dir => env.resolveAbs (replaceFirstTilde env.homedir dir)
    taskMode := none }

/-- `isInAllowedDir`: the data dir is always allowed, then the pre-resolved
allow-list is tested by string-prefix containment. -/
def isInAllowedDir (env : PathEnv) (e : PolicyEngine) (absPath : String) : Bool :=
  strStartsWith absPath (env.resolveAbs e.dataDir) ||
  e.resolvedAllowedDirs.any fun dir => strStartsWith absPath dir

/-- The extension computed by `path.substring(path.lastIndexOf('.'))`:
the suffix starting at the last dot, or the whole string when there is no
dot (JavaScript `substring(-1)` clamps to 0). -/
def lastDotSuffix : List Char → Option (List Char)
  | [] => none
  | '.' :: rest =>
    match lastDotSuffix rest with
    | some s => some s
    | none => some ('.' :: rest)
  | _ :: rest => lastDotSuffix rest

def extOf (path : String) : String :=
  match lastDotSuffix path.data with
  | some s => String.mk s
  | none => path

/-- `evaluateReadFile`. -/
def evaluateReadFile (env : PathEnv) (e : PolicyEngine) (args : Args) : PolicyDecision :=
  let path := getArg args "path"
  let resolved := resolvePath env path
  if isBlockedPath resolved then
    ⟨false, .blocked, "Blocked path: " ++ path, false⟩
  else if !isInAllowedDir env e resolved then
    ⟨false, .blocked, "Path outside allowed directories: " ++ path, false⟩
  else
    let ext := extOf path
    if SAFE_READ_EXTENSIONS.contains ext then
      ⟨true, .safe, "Safe file read", false⟩
    else
      ⟨true, .low, "Reading non-standard file type: " ++ ext, false⟩

/-- `evaluateWriteFile`. -/
def evaluateWriteFile (env : PathEnv) (e : PolicyEngine) (args : Args) : PolicyDecision :=
  let path := getArg args "path"
  let resolved := resolvePath env path
  if isBlockedPath resolved then
    ⟨false, .blocked, "Blocked path: " ++ path, false⟩
  else if !isInAllowedDir env e resolved then
    ⟨false, .blocked, "Path outside allowed directories: " ++ path, false⟩
  else if e.config.require_approval_for_writes then
    ⟨true, .medium, "Writing file: " ++ path, true⟩
  else
    ⟨true, .low, "Writing to allowed directory", false⟩

/-- `evaluateListDirectory`. -/
def evaluateListDirectory (env : PathEnv) (e : PolicyEngine) (args : Args) : PolicyDecision :=
  let path := getArg args "path"
  let resolved := resolvePath env path
  if isBlockedPath resolved then
    ⟨false, .blocked, "Blocked path: " ++ path, false⟩
  else if !isInAllowedDir env e resolved then
    ⟨false, .blocked, "Path outside allowed directories: " ++ path, false⟩
  else
    ⟨true, .safe, "Directory listing", false⟩

/-- `evaluateSearchFiles` (`args.directory || args.path || ''`). -/
def evaluateSearchFiles (env : PathEnv) (e : PolicyEngine) (args : Args) : PolicyDecision :=
  let dir := firstNonEmpty [getArg args "directory", getArg args "path"]
  let resolved := resolvePath env dir
  if !isInAllowedDir env e resolved then
    ⟨false, .blocked, "Search outside allowed directories", false⟩
  else
    ⟨true, .safe, "File search", false⟩

/-- `evaluateMoveFile`. -/
def evaluateMoveFile (env : PathEnv) (e : PolicyEngine) (args : Args) : PolicyDecision :=
  let from_ := resolvePath env (getArg args "from")
  let to_ := resolvePath env (getArg args "to")
  if isBlockedPath from_ || isBlockedPath to_ then
    ⟨false, .blocked, "Blocked path in move operation", false⟩
  else if !isInAllowedDir env e from_ || !isInAllowedDir env e to_ then
    ⟨false, .blocked, "Move involves paths outside allowed directories", false⟩
  else
    ⟨true, .medium, "Moving " ++ getArg args "from" ++ " → " ++ getArg args "to", true⟩

/-- `evaluateDeleteFile`: deletion is always high risk. -/
def evaluateDeleteFile (env : PathEnv) (e : PolicyEngine) (args : Args) : PolicyDecision :=
  let path := getArg args "path"
  let resolved := resolvePath env path
  if isBlockedPath resolved then
    ⟨false, .blocked, "Blocked path: " ++ path, false⟩
  else if !isInAllowedDir env e resolved then
    ⟨false, .blocked, "Path outside allowed directories", false⟩
  else
    ⟨true, .high, "Deleting: " ++ path, true⟩

/-- Backtick and left-brace characters, kept out of the literals. -/
def btick : Char := Char.ofNat 96

def lbrace : Char := Char.ofNat 123

/-- JavaScript `\s` restricted to the ASCII whitespace that can occur in the
commands under scrutiny. -/
def jsSpace (c : Char) : Bool := c.isWhitespace

def isWordChar (c : Char) : Bool := c.isAlphanum || c = '_'

/-- One alternative of the injection regex: `(sh|bash|zsh|eval)\b` at the
head of the character list. -/
def injWordAt (l : List Char) : Bool :=
  ["sh", "bash", "zsh", "eval"].any fun w =>
    w.data.isPrefixOf l &&
      (match l.drop w.length with
       | [] => true
       | c :: _ => !isWordChar c)

/-- `\|\s*(sh|bash|zsh|eval)\b` anchored at the head of the list. -/
def pipeInjAt : List Char → Bool
  | '|' :: rest => injWordAt (rest.dropWhile jsSpace)
  | _ => false

/-- `\$\(` or `\$\{` anchored at the head of the list. -/
def dollarInjAt : List Char → Bool
  | '$' :: c :: _ => c = '(' || c = lbrace
  | _ => false

/-- Body of the backtick alternative: after an opening backtick, at least one
non-backtick character followed by a closing backtick. -/
def tickBody : List Char → Bool → Bool
  | [], _ => false
  | c :: rest, seen => if c = btick then seen else tickBody rest true

/-- The `` `[^`]+` `` alternative, scanning the whole list. -/
def tickScan : List Char → Bool
  | [] => false
  | c :: rest => (c = btick && tickBody rest false) || tickScan rest

/-- Scan every suffix for an anchored match. -/
def suffixScan (f : List Char → Bool) : List Char → Bool
  | [] => f []
  | c :: rest => f (c :: rest) || suffixScan f rest

/-- The shell-injection regex of `evaluateRunCommand`. -/
def hasInjectionPattern (s : String) : Bool :=
  suffixScan (fun l => pipeInjAt l || dollarInjAt l) s.data || tickScan s.data

/-- `command.split(' ')[0]`. -/
def firstWordOf (s : String) : String := String.mk (s.data.takeWhile fun c => c != ' ')

/-- `command.split(' ')[0].split('/').pop() || ''`. -/
def baseCommandOf (command : String) : String :=
  String.mk (afterLastChar '/' (firstWordOf command).data)

/-- The `SAFE_COMMANDS.some(...)` allow-list test. -/
def isSafeCommand (command : String) : Bool :=
  let base := baseCommandOf command
  SAFE_COMMANDS.any fun safe =>
    let safeBase := firstWordOf safe
    base == safeBase && (safe == base || strStartsWith command safe)

/-- `evaluateRunCommand`. -/
def evaluateRunCommand (e : PolicyEngine) (args : Args) : PolicyDecision :=
  if !e.config.shell_enabled then
    ⟨false, .blocked, "Shell access is disabled", false⟩
  else
    let command := strTrim (getArg args "command")
    match BLOCKED_COMMANDS.find? fun b => strContains command b with
    | some b => ⟨false, .blocked, "Blocked command pattern: " ++ b, false⟩
    | none =>
      match e.config.blocked_commands.find? fun b => strContains command b with
      | some b => ⟨false, .blocked, "Blocked by config: " ++ b, false⟩
      | none =>
        if hasInjectionPattern command then
          ⟨false, .blocked, "Shell injection pattern detected", false⟩
        else if isSafeCommand command then
          ⟨true, .low, "Safe command: " ++ baseCommandOf command, false⟩
        else
          ⟨true, .medium, "Shell command: " ++ command, true⟩

/-- The fields of a parsed URL that `isSuspiciousUrl` inspects. -/
structure UrlParts where
  protocol : String
  hostname : String
  deriving DecidableEq, Repr

def schemeCharOk (c : Char) : Bool := c.isAlphanum || c = '+' || c = '-' || c = '.'

/-- The WHATWG special schemes, whose hosts are domain/IPv4 parsed. -/
def SPECIAL_SCHEMES : List String := ["http", "https", "ws", "wss", "ftp", "file"]

/-- Split on `.` (strict: empty labels are kept). -/
def splitDotAux : List Char → List Char → List (List Char)
  | [], acc => [acc.reverse]
  | c :: rest, acc =>
    if c = '.' then acc.reverse :: splitDotAux rest [] else splitDotAux rest (c :: acc)

def splitDot (l : List Char) : List (List Char) := splitDotAux l []

def hexDigitVal (c : Char) : Option Nat :=
  if c.isDigit then some (c.toNat - 48)
  else if 'a' ≤ c && c ≤ 'f' then some (c.toNat - 87)
  else if 'A' ≤ c && c ≤ 'F' then some (c.toNat - 55)
  else none

/-- Digits of the given radix folded into a value; `none` on any digit
outside the radix. -/
def digitsVal (radix : Nat) (l : List Char) : Option Nat :=
  l.foldl
    (fun acc c =>
      match acc, hexDigitVal c with
      | some a, some d => if d < radix then some (a * radix + d) else none
      | _, _ => none)
    (some 0)

/-- Modelled from the library: the WHATWG *IPv4 number parser*: `0x`/`0X`
means hexadecimal (an empty remainder parses as 0), a remaining leading `0`
means octal, otherwise decimal; an empty input or an out-of-radix digit is
failure. -/
def parseIPv4Number (input : List Char) : Option Nat :=
  match input with
  | [] => none
  | '0' :: x :: rest =>
    if x = 'x' || x = 'X' then
      match rest with
      | [] => some 0
      | _ => digitsVal 16 rest
    else digitsVal 8 (x :: rest)
  | _ => digitsVal 10 input

/-- Modelled from the library: the WHATWG *ends in a number* check on a
host (one trailing empty label is ignored). -/
def endsInNumber (host : List Char) : Bool :=
  let parts := splitDot host
  let parts :=
    match parts.getLast? with
    | some [] => if parts.length = 1 then parts else parts.dropLast
    | _ => parts
  match parts.getLast? with
  | none => false
  | some last =>
    (!last.isEmpty && last.all Char.isDigit) || (parseIPv4Number last).isSome

def parsePartsIPv4 : List (List Char) → Option (List Nat)
  | [] => some []
  | p :: rest =>
    match parseIPv4Number p, parsePartsIPv4 rest with
    | some n, some ns => some (n :: ns)
    | _, _ => none

/-- Modelled from the library: the WHATWG *IPv4 parser*: at most four
dot-separated IPv4 numbers (one trailing empty label ignored), every number
but the last at most 255, the last below `256^(5 - count)`; the pieces are
assembled into the 32-bit address. -/
def parseIPv4 (input : List Char) : Option Nat :=
  let parts := splitDot input
  let parts :=
    match parts.getLast? with
    | some [] => if parts.length > 1 then parts.dropLast else parts
    | _ => parts
  if parts.length > 4 then none
  else
    match parsePartsIPv4 parts with
    | none => none
    | some numbers =>
      match numbers.getLast? with
      | none => none
      | some last =>
        if numbers.dropLast.any fun n => n > 255 then none
        else if last ≥ 256 ^ (5 - numbers.length) then none
        else
          some ((numbers.dropLast.foldl (fun acc n => acc * 256 + n) 0) *
            256 ^ (5 - numbers.length) + last)

/-- Dotted-quad serialization of a 32-bit IPv4 address. -/
def serializeIPv4 (n : Nat) : String :=
  toString (n / 16777216 % 256) ++ "." ++ toString (n / 65536 % 256) ++ "." ++
  toString (n / 256 % 256) ++ "." ++ toString (n % 256)

/-- Modelled from the library: WHATWG `new URL` restricted to the
`scheme://[userinfo@]host[:port][/...]` shapes the policy checks exercise.
`none` models the constructor throwing.  For special schemes the host is
lower-cased and — exactly as `new URL` does — run through the IPv4
canonicalizer when it ends in a number, so `0x7f000001`, `2130706433` and
`0177.0.0.1` all become the hostname `127.0.0.1` while an out-of-range or
ill-formed numeric host is a parse failure; non-special schemes keep their
opaque host as written.  Port syntax and IPv6 / domain character validation
beyond whitespace are not modelled. -/
def parseUrl (url : String) : Option UrlParts :=
  let cs := url.data
  let scheme := cs.takeWhile fun c => c != ':'
  match scheme with
  | [] => none
  | c0 :: restScheme =>
    if scheme.length = cs.length then none
    else if !c0.isAlpha || !restScheme.all schemeCharOk then none
    else
      let schemeL := strToLower (String.mk scheme)
      match cs.drop (scheme.length + 1) with
      | '/' :: '/' :: tail =>
        let authority := tail.takeWhile fun c => c != '/' && c != '?' && c != '#'
        let hostPort := afterLastChar '@' authority
        if hostPort.any fun c => c = ' ' || c = '\t' then none
        else
          match hostPort with
          | '[' :: _ =>
            if !hostPort.contains ']' then none
            else
              let host := String.mk ((hostPort.takeWhile fun c => c != ']') ++ [']'])
              some ⟨schemeL ++ ":", strToLower host⟩
          | _ =>
            let host := hostPort.takeWhile fun c => c != ':'
            if host.isEmpty && SPECIAL_SCHEMES.contains schemeL && schemeL != "file" then
              none
            else if SPECIAL_SCHEMES.contains schemeL then
              let hostL := host.map Char.toLower
              if endsInNumber hostL then
                match parseIPv4 hostL with
                | none => none
                | some v => some ⟨schemeL ++ ":", serializeIPv4 v⟩
              else some ⟨schemeL ++ ":", String.mk hostL⟩
            else some ⟨schemeL ++ ":", String.mk host⟩
      | _ => none

/-- `/^0[0-7]/`. -/
def octalHost (h : String) : Bool :=
  match h.data with
  | '0' :: c :: _ => '0' ≤ c && c ≤ '7'
  | _ => false

/-- `/^0x[0-9a-f]+$/i`. -/
def hexHost (h : String) : Bool :=
  match h.data with
  | '0' :: x :: rest =>
    (x = 'x' || x = 'X') && !rest.isEmpty &&
      rest.all fun c => c.isDigit || ('a' ≤ c && c ≤ 'f') || ('A' ≤ c && c ≤ 'F')
  | _ => false

/-- `/^\d{8,}$/`. -/
def bigDecHost (h : String) : Bool :=
  h.data.all (fun c => c.isDigit) && decide (8 ≤ h.length)

/-- `isSuspiciousUrl`. -/
def isSuspiciousUrl (url : String) : Bool :=
  match parseUrl url with
  | none => true
  | some parsed =>
    let hostname := strToLower parsed.hostname
    parsed.protocol == "file:" ||
    ["localhost", "127.0.0.1", "0.0.0.0", "[::1]", "::1"].contains hostname ||
    (strStartsWith hostname "[" && strContains hostname "::") ||
    strStartsWith hostname "192.168." ||
    strStartsWith hostname "10." ||
    strStartsWith hostname "172." ||
    strStartsWith hostname "169.254." ||
    octalHost hostname ||
    hexHost hostname ||
    bigDecHost hostname ||
    strEndsWith hostname ".local" ||
    strEndsWith hostname ".internal"

/-- `evaluateFetchPage`. -/
def evaluateFetchPage (e : PolicyEngine) (args : Args) : PolicyDecision :=
  if !e.config.browser_enabled then
    ⟨false, .blocked, "Browser access is disabled", false⟩
  else
    let url := getArg args "url"
    if isSuspiciousUrl url then
      ⟨false, .blocked, "Suspicious URL: " ++ url, false⟩
    else
      ⟨true, .safe, "Fetching: " ++ url, false⟩

/-- `evaluateSearchWeb`. -/
def evaluateSearchWeb (e : PolicyEngine) (_args : Args) : PolicyDecision :=
  if !e.config.browser_enabled then
    ⟨false, .blocked, "Browser access is disabled", false⟩
  else
    ⟨true, .safe, "Web search", false⟩

/-- `evaluateDownloadFile`. -/
def evaluateDownloadFile (env : PathEnv) (e : PolicyEngine) (args : Args) : PolicyDecision :=
  if !e.config.browser_enabled then
    ⟨false, .blocked, "Browser access is disabled", false⟩
  else
    let url := getArg args "url"
    let savePath := getArg args "savePath"
    let resolvedSave := resolvePath env savePath
    if !isInAllowedDir env e resolvedSave then
      ⟨false, .blocked, "Download path outside allowed directories", false⟩
    else if isSuspiciousUrl url then
      ⟨false, .blocked, "Suspicious URL: " ++ url, false⟩
    else
      ⟨true, .high, "Downloading: " ++ url ++ " → " ++ savePath, true⟩

/-- `decisionForRisk`: a `blocked` override is refused; any other override
recomputes `requiresApproval` as membership in medium / high. -/
def decisionForRisk (risk : RiskLevel) (tool : String) : PolicyDecision :=
  if risk = .blocked then
    ⟨false, risk, "Blocked by risk override", false⟩
  else
    ⟨true, risk, "Risk override for " ++ tool, risk == .medium || risk == .high⟩

/-- `PolicyEngine.evaluate`: risk overrides short-circuit first, then the
per-tool dispatch; unknown tools are blocked. -/
def evaluate (env : PathEnv) (e : PolicyEngine) (toolName : String) (args : Args) :
    PolicyDecision :=
  match (e.config.risk_overrides.find? fun kv => kv.1 == toolName).map fun kv => kv.2 with
  | some overrideRisk => decisionForRisk overrideRisk toolName
  | none =>
    if toolName = "read_file" then evaluateReadFile env e args
    else if toolName = "write_file" then evaluateWriteFile env e args
    else if toolName = "list_directory" then evaluateListDirectory env e args
    else if toolName = "search_files" then evaluateSearchFiles env e args
    else if toolName = "move_file" then evaluateMoveFile env e args
    else if toolName = "delete_file" then evaluateDeleteFile env e args
    else if toolName = "run_command" then evaluateRunCommand e args
    else if toolName = "fetch_page" then evaluateFetchPage e args
    else if toolName = "search_web" then evaluateSearchWeb e args
    else if toolName = "download_file" then evaluateDownloadFile env e args
    else ⟨false, .blocked, "Unknown tool: " ++ toolName, false⟩

/-- `enterTaskMode`: stores the resolved working directory. -/
def enterTaskMode (env : PathEnv) (e : PolicyEngine) (taskId workingDir : String) :
    PolicyEngine :=
  { e with taskMode := some ⟨true, resolvePath env workingDir, taskId⟩ }

/-- `exitTaskMode`. -/
def exitTaskMode (e : PolicyEngine) : PolicyEngine :=
  { e with taskMode := none }

/-- `isTaskMode`. -/
def isTaskMode (e : PolicyEngine) : Bool :=
  (e.taskMode.map fun tm => tm.active).getD false

/-- `evaluateForTask`: in task mode, medium-risk approval-requiring decisions
whose path (or, for `run_command`, cwd) argument resolves to a string with the
scope's working directory as prefix are returned with `requiresApproval`
cleared; blocked and high decisions pass through untouched. -/
def evaluateForTask (env : PathEnv) (e : PolicyEngine) (toolName : String) (args : Args) :
    PolicyDecision :=
  let decision := evaluate env e toolName args
  match e.taskMode with
  | none => decision
  | some tm =>
    if !tm.active then decision
    else if decision.risk = .blocked then decision
    else if decision.risk = .high then decision
    else if decision.requiresApproval && decision.risk = .medium then
      let path := firstNonEmpty [getArg args "path", getArg args "from", getArg args "savePath"]
      if path != "" && strStartsWith (resolvePath env path) tm.workingDir then
        { decision with
          requiresApproval := false
          reason := decision.reason ++ " [auto-godkjent i oppgavemodus]" }
      else if toolName = "run_command" then
        let cwd := getArg args "cwd"
        if cwd != "" && strStartsWith (resolvePath env cwd) tm.workingDir then
          { decision with
            requiresApproval := false
            reason := decision.reason ++ " [auto-godkjent i oppgavemodus]" }
        else decision
      else decision
    else decision

/-! ### Task engine (`TaskEngine` in the same source file) -/

inductive StepStatus
  | pending
  | running
  | completed
  | failed
  | skipped
  deriving DecidableEq, Repr

inductive TaskStatus
  | planning
  | awaiting_approval
  | running
  | completed
  | failed
  | cancelled
  deriving DecidableEq, Repr

/-- `TaskStep` (timestamps elided). -/
structure TaskStep where
  id : String
  description : String
  tool : String
  args : Args
  status : StepStatus
  result : Option String := none
  error : Option String := none
  deriving DecidableEq, Repr

/-- `TaskPlan` (timestamps elided). -/
structure TaskPlan where
  id : String
  description : String
  steps : List TaskStep
  workingDir : String
  status : TaskStatus
  error : Option String := none
  deriving DecidableEq, Repr

/-- The execution context of `executeTask`: the registered tool executors
(results modelled as pure functions of the arguments), the optional
screenshot callback, and `process.env.HOME`. -/
structure ExecEnv where
  executors : String → Option (Args → String)
  screenshot : Option (String → Option String)
  home : String

/-- The rejection-phrase check on a step result. -/
def isRejectionResult (r : String) : Bool :=
  strContains r "Fikk ikke lov" || strContains r "Ikke tillatt" || strContains r "Blokkert"

/-- `args.cwd = v`, overwriting an existing entry. -/
def setArg (args : Args) (k v : String) : Args :=
  if (args.find? fun kv => kv.1 == k).isSome then
    args.map fun kv => if kv.1 == k then (k, v) else kv
  else args ++ [(k, v)]

/-- Working-directory injection for command steps without a `cwd`. -/
def stepExecArgs (ee : ExecEnv) (wd : String) (step : TaskStep) : Args :=
  if step.tool = "run_command" && getArg step.args "cwd" = "" then
    setArg step.args "cwd" (expandHome ee.home wd)
  else step.args

/-- The screenshot special case (`path || 'Skjermbilde tatt'`). -/
def screenshotResult (ee : ExecEnv) (taskId : String) : String :=
  match ee.screenshot with
  | some cb =>
    let p := (cb taskId).getD ""
    if p = "" then "Skjermbilde tatt" else p
  | none => "Screenshot ikke tilgjengelig"

/-- The step loop of `executeTask`.  Returns the updated steps and, when a
critical step failed (breaking the loop), the task error.  Steps after the
break point are returned unchanged.  The `catch` branch for a throwing
executor cannot fire here because executors are modelled as total
functions. -/
def execSteps (ee : ExecEnv) (wd taskId : String) : Nat → List TaskStep → List TaskStep × Option String
  | _, [] => ([], none)
  | i, step :: rest =>
    if step.tool = "screenshot" then
      let next := execSteps ee wd taskId (i + 1) rest
      ({ step with result := some (screenshotResult ee taskId), status := .completed } :: next.1,
       next.2)
    else
      match ee.executors step.tool with
      | none =>
        let next := execSteps ee wd taskId (i + 1) rest
        ({ step with error := some ("Ukjent verktøy: " ++ step.tool), status := .failed } :: next.1,
         next.2)
      | some runTool =>
        let result := runTool (stepExecArgs ee wd step)
        if isRejectionResult result then
          if step.tool = "write_file" || step.tool = "run_command" then
            ({ step with result := some result, error := some result, status := .failed } :: rest,
             some ("Steg " ++ toString (i + 1) ++ " feilet: " ++ result))
          else
            let next := execSteps ee wd taskId (i + 1) rest
            ({ step with result := some result, error := some result, status := .failed } :: next.1,
             next.2)
        else
          let next := execSteps ee wd taskId (i + 1) rest
          ({ step with result := some result, status := .completed } :: next.1, next.2)

/-- `executeTask` on the current task: run the steps; if the loop broke with
a critical failure the task is `failed`, otherwise it is `completed`. -/
def executeTask (ee : ExecEnv) (task : TaskPlan) : TaskPlan :=
  let outcome := execSteps ee task.workingDir task.id 0 task.steps
  match outcome.2 with
  | some eMsg => { task with steps := outcome.1, status := .failed, error := some eMsg }
  | none => { task with steps := outcome.1, status := .completed }

/-- `TaskEngine.cancel`: pending and running steps become skipped. -/
def cancelTask (task : TaskPlan) : TaskPlan :=
  { task with
    status := .cancelled
    steps := task.steps.map fun s =>
      if s.status = .pending || s.status = .running then { s with status := .skipped } else s }

/-! ### Approval manager (`ApprovalManager`) -/

def APPROVAL_TIMEOUT_MS : Nat := 5 * 60000

def YES_WORDS : List String :=
  ["ja", "yes", "ok", "okei", "greit", "kjør", "godkjenn", "go", "sure", "yep", "jep", "j", "y"]

def NO_WORDS : List String :=
  ["nei", "no", "nope", "stopp", "avvis", "ikke", "nei takk", "n"]

/-- `ApprovalRequest` (the `resolve` callback is modelled by recording the
resolution in `ApprovalState.outcomes`). -/
structure ApprovalRequest where
  id : String
  tool : String
  args : Args
  risk : RiskLevel
  description : String
  createdAt : Nat
  deriving DecidableEq, Repr

/-- The manager's mutable state: the insertion-ordered `pending` map and the
promise resolutions produced so far (most recent first). -/
structure ApprovalState where
  pending : List (String × ApprovalRequest)
  outcomes : List (String × Bool)
  allowedUsers : List Nat
  deriving DecidableEq, Repr

def removePending (st : ApprovalState) (id : String) : List (String × ApprovalRequest) :=
  st.pending.filter fun kv => kv.1 != id

/-- `requestApproval` up to its first suspension: with no bot or no users it
resolves `false` immediately, otherwise the request is registered and the
promise is left pending (`none`). -/
def requestApprovalStart (hasBot : Bool) (st : ApprovalState) (req : ApprovalRequest) :
    ApprovalState × Option Bool :=
  if !hasBot || st.allowedUsers.isEmpty then (st, some false)
  else ({ st with pending := st.pending ++ [(req.id, req)] }, none)

/-- The `setTimeout` callback of `requestApproval`: if the request is still
pending when the timer fires it is removed and resolved `false`. -/
def timeoutFire (st : ApprovalState) (id : String) : ApprovalState :=
  if (st.pending.find? fun kv => kv.1 == id).isSome then
    { st with pending := removePending st id, outcomes := (id, false) :: st.outcomes }
  else st

/-- The inline-keyboard callback handler: already-handled requests and
unauthorized users are no-ops, otherwise the request resolves to the chosen
verdict and leaves the pending map. -/
def callbackResolve (st : ApprovalState) (userId : Nat) (action id : String) : ApprovalState :=
  if id = "" || (action != "approve" && action != "reject") then st
  else
    match st.pending.find? fun kv => kv.1 == id with
    | none => st
    | some _ =>
      if !st.allowedUsers.contains userId then st
      else
        { st with
          pending := removePending st id
          outcomes := (id, action == "approve") :: st.outcomes }

/-- The most recently created pending request (strictly greater `createdAt`
wins; ties keep the earlier iteration entry), as in `handleTextResponse`. -/
def latestPending (l : List (String × ApprovalRequest)) : Option (String × ApprovalRequest) :=
  (l.foldl
    (fun acc kv => if kv.2.createdAt > acc.2 then (some kv, kv.2.createdAt) else acc)
    ((none : Option (String × ApprovalRequest)), 0)).1

/-- `handleTextResponse`: a yes/no utterance from an authorized user resolves
the most recently created pending request. -/
def handleTextResponse (st : ApprovalState) (userId : Nat) (text : String) :
    ApprovalState × Bool :=
  if st.pending.isEmpty then (st, false)
  else if !st.allowedUsers.contains userId then (st, false)
  else
    let normalized := strToLower (strTrim text)
    let isYes := YES_WORDS.contains normalized
    let isNo := NO_WORDS.contains normalized
    if !isYes && !isNo then (st, false)
    else
      match latestPending st.pending with
      | none => (st, false)
      | some kv =>
        ({ st with pending := removePending st kv.1, outcomes := (kv.1, isYes) :: st.outcomes },
         true)

/-! ### Concrete instances used by witnesses and counterexamples.

`envDemo` models a host with home directory `/home/u` where the probed paths
are already normalised absolute paths (`resolve ∘ normalize` is the identity
on them) and do not exist on disk (`realpathSync` throws, so `resolvePath`
falls back to the resolved path, as the code does). -/

def envDemo : PathEnv := ⟨"/home/u", fun s => s, fun _ => none⟩

/-- The test-suite configuration shape: one config-blocked command, shell and
browser enabled, writes need approval, no overrides. -/
def cfgDemo : PolicyConfig := ⟨["/home/u"], ["npm publish"], true, true, true, []⟩

def engDemo : PolicyEngine := mkPolicyEngine envDemo cfgDemo "/data"

/-- A config whose risk overrides downgrade `read_file` and `write_file`. -/
def cfgOvRW : PolicyConfig :=
  ⟨["/home/u"], [], true, true, true,
   [("read_file", RiskLevel.safe), ("write_file", RiskLevel.low)]⟩

def engOvRW : PolicyEngine := mkPolicyEngine envDemo cfgOvRW "/data"

/-- A config whose risk override downgrades `delete_file` to low. -/
def cfgOvDel : PolicyConfig :=
  ⟨["/home/u"], [], true, true, true, [("delete_file", RiskLevel.low)]⟩

def engOvDel : PolicyEngine := mkPolicyEngine envDemo cfgOvDel "/data"

/-- Empty allow-list, no overrides: only the data dir is reachable. -/
def cfgNoDirs : PolicyConfig := ⟨[], [], true, true, true, []⟩

/-- Empty allow-list plus a `blocked` override for `read_file`. -/
def cfgOvData : PolicyConfig :=
  ⟨[], [], true, true, true, [("read_file", RiskLevel.blocked)]⟩

def engOvData : PolicyEngine := mkPolicyEngine envDemo cfgOvData "/data"

/-- `engDemo` after `enterTaskMode('t1', '/home/u/proj')`. -/
def engTask : PolicyEngine := enterTaskMode envDemo engDemo "t1" "/home/u/proj"

def rejectWriteTool : Args → String := fun _ => "Fikk ikke lov: avvist"

def okReadTool : Args → String := fun _ => "innhold ok"

def eeDemo : ExecEnv :=
  ⟨fun t =>
    if t = "write_file" then some rejectWriteTool
    else if t = "read_file" then some okReadTool
    else none,
   none, "/home/u"⟩

def stepReadDemo : TaskStep :=
  ⟨"s1", "les fil", "read_file", [("path", "/home/u/a.txt")], .pending, none, none⟩

def stepWriteDemo : TaskStep :=
  ⟨"s2", "skriv fil", "write_file", [("path", "/home/u/b.txt")], .pending, none, none⟩

def stepReadDemo2 : TaskStep :=
  ⟨"s3", "les fil igjen", "read_file", [("path", "/home/u/c.txt")], .pending, none, none⟩

/-- A running three-step plan whose second step's executor result carries a
rejection phrase. -/
def planDemo : TaskPlan :=
  ⟨"tid", "demo", [stepReadDemo, stepWriteDemo, stepReadDemo2], "/home/u", .running, none⟩

def reqDemo : ApprovalRequest :=
  ⟨"r1", "write_file", [("path", "/home/u/b.txt")], .medium, "Skriv fil", 1000⟩

def approvalDemo : ApprovalState := ⟨[("r1", reqDemo)], [], [7]⟩

/-- The two decision invariants of the specification, for one decision. -/
def DecOk (d : PolicyDecision) : Prop :=
  (d.risk = RiskLevel.blocked → d.allowed = false) ∧
  (d.requiresApproval = true → d.allowed = true)

/-! ### Helper lemmas -/

theorem decOk_deny (r : RiskLevel) (s : String) : DecOk ⟨false, r, s, false⟩ :=
  ⟨fun _ => rfl, fun h => Bool.noConfusion h⟩

theorem decOk_allow (r : RiskLevel) (s : String) (b : Bool) (h : r ≠ RiskLevel.blocked) :
    DecOk ⟨true, r, s, b⟩ :=
  ⟨fun hr => absurd hr h, fun _ => rfl⟩

theorem decOk_readFile (env : PathEnv) (e : PolicyEngine) (args : Args) :
    DecOk (evaluateReadFile env e args) := by
  unfold evaluateReadFile
  dsimp only
  split
  · exact decOk_deny _ _
  · split
    · exact decOk_deny _ _
    · split
      · exact decOk_allow _ _ _ (by decide)
      · exact decOk_allow _ _ _ (by decide)

theorem decOk_writeFile (env : PathEnv) (e : PolicyEngine) (args : Args) :
    DecOk (evaluateWriteFile env e args) := by
  unfold evaluateWriteFile
  dsimp only
  split
  · exact decOk_deny _ _
  · split
    · exact decOk_deny _ _
    · split
      · exact decOk_allow _ _ _ (by decide)
      · exact decOk_allow _ _ _ (by decide)

theorem decOk_listDirectory (env : PathEnv) (e : PolicyEngine) (args : Args) :
    DecOk (evaluateListDirectory env e args) := by
  unfold evaluateListDirectory
  dsimp only
  split
  · exact decOk_deny _ _
  · split
    · exact decOk_deny _ _
    · exact decOk_allow _ _ _ (by decide)

theorem decOk_searchFiles (env : PathEnv) (e : PolicyEngine) (args : Args) :
    DecOk (evaluateSearchFiles env e args) := by
  unfold evaluateSearchFiles
  dsimp only
  split
  · exact decOk_deny _ _
  · exact decOk_allow _ _ _ (by decide)

theorem decOk_moveFile (env : PathEnv) (e : PolicyEngine) (args : Args) :
    DecOk (evaluateMoveFile env e args) := by
  unfold evaluateMoveFile
  dsimp only
  split
  · exact decOk_deny _ _
  · split
    · exact decOk_deny _ _
    · exact decOk_allow _ _ _ (by decide)

theorem decOk_deleteFile (env : PathEnv) (e : PolicyEngine) (args : Args) :
    DecOk (evaluateDeleteFile env e args) := by
  unfold evaluateDeleteFile
  dsimp only
  split
  · exact decOk_deny _ _
  · split
    · exact decOk_deny _ _
    · exact decOk_allow _ _ _ (by decide)

theorem decOk_runCommand (e : PolicyEngine) (args : Args) :
    DecOk (evaluateRunCommand e args) := by
  unfold evaluateRunCommand
  dsimp only
  split
  · exact decOk_deny _ _
  · split
    · exact decOk_deny _ _
    · split
      · exact decOk_deny _ _
      · split
        · exact decOk_deny _ _
        · split
          · exact decOk_allow _ _ _ (by decide)
          · exact decOk_allow _ _ _ (by decide)

theorem decOk_fetchPage (e : PolicyEngine) (args : Args) :
    DecOk (evaluateFetchPage e args) := by
  unfold evaluateFetchPage
  dsimp only
  split
  · exact decOk_deny _ _
  · split
    · exact decOk_deny _ _
    · exact decOk_allow _ _ _ (by decide)

theorem decOk_searchWeb (e : PolicyEngine) (args : Args) :
    DecOk (evaluateSearchWeb e args) := by
  unfold evaluateSearchWeb
  split
  · exact decOk_deny _ _
  · exact decOk_allow _ _ _ (by decide)

theorem decOk_downloadFile (env : PathEnv) (e : PolicyEngine) (args : Args) :
    DecOk (evaluateDownloadFile env e args) := by
  unfold evaluateDownloadFile
  dsimp only
  split
  · exact decOk_deny _ _
  · split
    · exact decOk_deny _ _
    · split
      · exact decOk_deny _ _
      · exact decOk_allow _ _ _ (by decide)

theorem decOk_decisionForRisk (r : RiskLevel) (t : String) : DecOk (decisionForRisk r t) := by
  unfold decisionForRisk
  split
  · exact ⟨fun _ => rfl, fun h => Bool.noConfusion h⟩
  · next h => exact decOk_allow _ _ _ h

theorem decOk_evaluate (env : PathEnv) (e : PolicyEngine) (toolName : String) (args : Args) :
    DecOk (evaluate env e toolName args) := by
  unfold evaluate
  split
  · exact decOk_decisionForRisk _ _
  · split
    · exact decOk_readFile _ _ _
    · split
      · exact decOk_writeFile _ _ _
      · split
        · exact decOk_listDirectory _ _ _
        · split
          · exact decOk_searchFiles _ _ _
          · split
            · exact decOk_moveFile _ _ _
            · split
              · exact decOk_deleteFile _ _ _
              · split
                · exact decOk_runCommand _ _
                · split
                  · exact decOk_fetchPage _ _
                  · split
                    · exact decOk_searchWeb _ _
                    · split
                      · exact decOk_downloadFile _ _ _
                      · exact decOk_deny _ _

theorem decOk_update (d : PolicyDecision) (s : String) (hm : d.risk = RiskLevel.medium) :
    DecOk ⟨d.allowed, d.risk, s, false⟩ := by
  constructor
  · intro hb
    rw [hm] at hb
    exact absurd hb (by decide)
  · intro hf
    exact Bool.noConfusion hf

theorem decOk_evaluateForTask (env : PathEnv) (e : PolicyEngine) (toolName : String)
    (args : Args) : DecOk (evaluateForTask env e toolName args) := by
  have hd := decOk_evaluate env e toolName args
  unfold evaluateForTask
  dsimp only
  split
  · exact hd
  · split
    · exact hd
    · split
      · exact hd
      · split
        · exact hd
        · split
          · next hguard =>
            have hra := (Bool.and_eq_true _ _).mp hguard
            have hm : (evaluate env e toolName args).risk = RiskLevel.medium :=
              of_decide_eq_true hra.2
            split
            · exact decOk_update _ _ hm
            · split
              · split
                · exact decOk_update _ _ hm
                · exact hd
              · exact hd
          · exact hd

/-- With no risk override registered for a tool, `evaluate` reaches the
per-tool dispatch. -/
theorem evaluate_read_eq (env : PathEnv) (e : PolicyEngine) (args : Args)
    (h : (e.config.risk_overrides.find? fun kv => kv.1 == "read_file") = none) :
    evaluate env e "read_file" args = evaluateReadFile env e args := by
  unfold evaluate
  rw [h]
  simp

theorem evaluate_write_eq (env : PathEnv) (e : PolicyEngine) (args : Args)
    (h : (e.config.risk_overrides.find? fun kv => kv.1 == "write_file") = none) :
    evaluate env e "write_file" args = evaluateWriteFile env e args := by
  unfold evaluate
  rw [h]
  simp

theorem evaluate_list_eq (env : PathEnv) (e : PolicyEngine) (args : Args)
    (h : (e.config.risk_overrides.find? fun kv => kv.1 == "list_directory") = none) :
    evaluate env e "list_directory" args = evaluateListDirectory env e args := by
  unfold evaluate
  rw [h]
  simp

theorem evaluate_delete_eq (env : PathEnv) (e : PolicyEngine) (args : Args)
    (h : (e.config.risk_overrides.find? fun kv => kv.1 == "delete_file") = none) :
    evaluate env e "delete_file" args = evaluateDeleteFile env e args := by
  unfold evaluate
  rw [h]
  simp

theorem evaluate_run_eq (env : PathEnv) (e : PolicyEngine) (args : Args)
    (h : (e.config.risk_overrides.find? fun kv => kv.1 == "run_command") = none) :
    evaluate env e "run_command" args = evaluateRunCommand e args := by
  unfold evaluate
  rw [h]
  simp

theorem evaluate_fetch_eq (env : PathEnv) (e : PolicyEngine) (args : Args)
    (h : (e.config.risk_overrides.find? fun kv => kv.1 == "fetch_page") = none) :
    evaluate env e "fetch_page" args = evaluateFetchPage e args := by
  unfold evaluate
  rw [h]
  simp

theorem find?_removePending (st : ApprovalState) (id : String) :
    ((removePending st id).find? fun kv => kv.1 == id) = none := by
  apply List.find?_eq_none.mpr
  intro kv hkv
  have h2 := (List.mem_filter.mp hkv).2
  simp only [bne_iff_ne, ne_eq] at h2
  simp only [beq_iff_eq]
  exact h2

/-! ### Claim theorems -/

/-- C6: for every tool name, argument map, engine state (hence every
`PolicyConfig`) and path environment, the decision returned by `evaluate` and
by `evaluateForTask` satisfies both invariants: `risk = blocked` implies
`allowed = false`, and `requiresApproval = true` implies `allowed = true`. -/
theorem decision_invariants (env : PathEnv) (e : PolicyEngine) (toolName : String)
    (args : Args) :
    ((evaluate env e toolName args).risk = RiskLevel.blocked →
      (evaluate env e toolName args).allowed = false) ∧
    ((evaluate env e toolName args).requiresApproval = true →
      (evaluate env e toolName args).allowed = true) ∧
    ((evaluateForTask env e toolName args).risk = RiskLevel.blocked →
      (evaluateForTask env e toolName args).allowed = false) ∧
    ((evaluateForTask env e toolName args).requiresApproval = true →
      (evaluateForTask env e toolName args).allowed = true) :=
  ⟨(decOk_evaluate env e toolName args).1, (decOk_evaluate env e toolName args).2,
   (decOk_evaluateForTask env e toolName args).1, (decOk_evaluateForTask env e toolName args).2⟩

/-- Witness for C6 at an unknown tool, whose decision is blocked. -/
theorem decision_invariants_witness :
    (evaluate envDemo engDemo "hack_the_planet" []).risk = RiskLevel.blocked ∧
    (evaluate envDemo engDemo "hack_the_planet" []).allowed = false ∧
    (evaluateForTask envDemo engDemo "hack_the_planet" []).allowed = false :=
  ⟨by decide,
   (decision_invariants envDemo engDemo "hack_the_planet" []).1 (by decide),
   (decision_invariants envDemo engDemo "hack_the_planet" []).2.2.1 (by decide)⟩

/-- C10: whenever no task mode is active (`taskMode` is `null`, the state
after construction and after `exitTaskMode`), `evaluateForTask` returns
exactly the decision of `evaluate`, for every tool, argument map and
engine. -/
theorem no_task_mode_evaluateForTask_eq (env : PathEnv) (e : PolicyEngine)
    (toolName : String) (args : Args) (h : e.taskMode = none) :
    evaluateForTask env e toolName args = evaluate env e toolName args ∧
    (mkPolicyEngine env e.config e.dataDir).taskMode = none ∧
    (exitTaskMode e).taskMode = none := by
  refine ⟨?_, rfl, rfl⟩
  unfold evaluateForTask
  rw [h]

/-- Witness for C10 on the freshly constructed demo engine. -/
theorem no_task_mode_evaluateForTask_eq_witness :
    evaluateForTask envDemo engDemo "write_file" [("path", "/home/u/a.txt")] =
      evaluate envDemo engDemo "write_file" [("path", "/home/u/a.txt")] :=
  (no_task_mode_evaluateForTask_eq envDemo engDemo "write_file"
    [("path", "/home/u/a.txt")] rfl).1

/-- C8: when the timeout handler fires while the request is still pending,
the request is resolved `false` and removed from the pending map, and the
resulting manager state is exactly the state an explicit rejection by an
authorized user would have produced. -/
theorem approval_timeout_denies (st : ApprovalState) (id : String)
    (hp : (st.pending.find? fun kv => kv.1 == id).isSome = true) :
    ((timeoutFire st id).pending.find? fun kv => kv.1 == id) = none ∧
    (timeoutFire st id).outcomes = (id, false) :: st.outcomes ∧
    (∀ u, st.allowedUsers.contains u = true → id ≠ "" →
      callbackResolve st u "reject" id = timeoutFire st id) := by
  unfold timeoutFire
  rw [if_pos hp]
  refine ⟨find?_removePending st id, rfl, ?_⟩
  intro u hu hid
  unfold callbackResolve
  obtain ⟨kv0, hkv0⟩ := Option.isSome_iff_exists.mp hp
  rw [hkv0]
  have h1 : ¬ ((decide (id = "") || ("reject" != "approve" && "reject" != "reject")) = true) := by
    simp [hid]
  rw [if_neg h1]
  dsimp only
  have h2 : ¬ ((!st.allowedUsers.contains u) = true) := by
    rw [hu]
    decide
  rw [if_neg h2]
  simp

/-- Witness for C8: the demo request times out and the state equals the
explicit-rejection state. -/
theorem approval_timeout_denies_witness :
    ((timeoutFire approvalDemo "r1").pending.find? fun kv => kv.1 == "r1") = none ∧
    (timeoutFire approvalDemo "r1").outcomes = [("r1", false)] ∧
    callbackResolve approvalDemo 7 "reject" "r1" = timeoutFire approvalDemo "r1" := by
  have h := approval_timeout_denies approvalDemo "r1" (by decide)
  exact ⟨h.1, h.2.1, h.2.2 7 (by decide) (by decide)⟩

/-- C1 (amended): for every engine whose config carries no risk override for
`read_file` or `write_file`, every path environment (hence every symlink
layout) and every path whose symlink-resolved absolute form lies outside the
allowed set, `evaluate` on read and write returns `allowed = false` and
`risk = blocked`.  (The claim as stated over every `PolicyConfig` fails: a
risk override short-circuits the containment check, see the
counterexample.) -/
theorem outside_allowed_read_write_blocked (env : PathEnv) (e : PolicyEngine) (p : String)
    (hr : (e.config.risk_overrides.find? fun kv => kv.1 == "read_file") = none)
    (hw : (e.config.risk_overrides.find? fun kv => kv.1 == "write_file") = none)
    (hout : isInAllowedDir env e (resolvePath env p) = false) :
    (evaluate env e "read_file" [("path", p)]).allowed = false ∧
    (evaluate env e "read_file" [("path", p)]).risk = RiskLevel.blocked ∧
    (evaluate env e "write_file" [("path", p)]).allowed = false ∧
    (evaluate env e "write_file" [("path", p)]).risk = RiskLevel.blocked := by
  rw [evaluate_read_eq env e _ hr, evaluate_write_eq env e _ hw]
  have hget : getArg [("path", p)] "path" = p := rfl
  unfold evaluateReadFile evaluateWriteFile
  dsimp only
  rw [hget, hout]
  refine ⟨?_, ?_, ?_, ?_⟩ <;> split <;> simp

/-- Witness for C1 on a path outside the demo allow-list. -/
theorem outside_allowed_read_write_blocked_witness :
    isInAllowedDir envDemo engDemo (resolvePath envDemo "/tmp/secret.txt") = false ∧
    (evaluate envDemo engDemo "read_file" [("path", "/tmp/secret.txt")]).allowed = false ∧
    (evaluate envDemo engDemo "read_file" [("path", "/tmp/secret.txt")]).risk = RiskLevel.blocked ∧
    (evaluate envDemo engDemo "write_file" [("path", "/tmp/secret.txt")]).allowed = false ∧
    (evaluate envDemo engDemo "write_file" [("path", "/tmp/secret.txt")]).risk = RiskLevel.blocked := by
  have h := outside_allowed_read_write_blocked envDemo engDemo "/tmp/secret.txt" rfl rfl (by decide)
  exact ⟨by decide, h.1, h.2.1, h.2.2.1, h.2.2.2⟩

/-- C1 counterexample: a config with a `read_file`/`write_file` risk override
lets both operations through on a path outside every allowed directory. -/
theorem read_outside_allowed_override_cex :
    isInAllowedDir envDemo engOvRW (resolvePath envDemo "/tmp/secret.txt") = false ∧
    (evaluate envDemo engOvRW "read_file" [("path", "/tmp/secret.txt")]).allowed = true ∧
    (evaluate envDemo engOvRW "read_file" [("path", "/tmp/secret.txt")]).risk = RiskLevel.safe ∧
    (evaluate envDemo engOvRW "write_file" [("path", "/tmp/secret.txt")]).allowed = true := by
  decide

/-- C2 (amended): with no risk override for `delete_file`, deleting a path
inside an allowed directory that matches no blocked-path pattern is always
`risk = high` with `requiresApproval = true`.  (The claim that this holds
under every `riskOverrides` entry fails, see the counterexample.) -/
theorem delete_always_high_requires_approval (env : PathEnv) (e : PolicyEngine) (p : String)
    (hov : (e.config.risk_overrides.find? fun kv => kv.1 == "delete_file") = none)
    (hb : isBlockedPath (resolvePath env p) = false)
    (ha : isInAllowedDir env e (resolvePath env p) = true) :
    (evaluate env e "delete_file" [("path", p)]).risk = RiskLevel.high ∧
    (evaluate env e "delete_file" [("path", p)]).requiresApproval = true ∧
    (evaluate env e "delete_file" [("path", p)]).allowed = true := by
  rw [evaluate_delete_eq env e _ hov]
  have hget : getArg [("path", p)] "path" = p := rfl
  unfold evaluateDeleteFile
  dsimp only
  rw [hget, hb, ha]
  simp

/-- Witness for C2 on an allowed, unblocked demo path. -/
theorem delete_always_high_requires_approval_witness :
    isBlockedPath (resolvePath envDemo "/home/u/old-file.txt") = false ∧
    isInAllowedDir envDemo engDemo (resolvePath envDemo "/home/u/old-file.txt") = true ∧
    (evaluate envDemo engDemo "delete_file" [("path", "/home/u/old-file.txt")]).risk =
      RiskLevel.high ∧
    (evaluate envDemo engDemo "delete_file" [("path", "/home/u/old-file.txt")]).requiresApproval =
      true := by
  have h := delete_always_high_requires_approval envDemo engDemo "/home/u/old-file.txt"
    rfl (by decide) (by decide)
  exact ⟨by decide, by decide, h.1, h.2.1⟩

/-- C2 counterexample: a `riskOverrides` entry for `delete_file` downgrades a
delete inside an allowed directory to low risk with no approval. -/
theorem delete_override_downgrade_cex :
    isInAllowedDir envDemo engOvDel (resolvePath envDemo "/home/u/old-file.txt") = true ∧
    isBlockedPath (resolvePath envDemo "/home/u/old-file.txt") = false ∧
    (evaluate envDemo engOvDel "delete_file" [("path", "/home/u/old-file.txt")]).risk =
      RiskLevel.low ∧
    (evaluate envDemo engOvDel "delete_file" [("path", "/home/u/old-file.txt")]).requiresApproval =
      false ∧
    (evaluate envDemo engOvDel "delete_file" [("path", "/home/u/old-file.txt")]).allowed = true := by
  decide

/-- C9 (amended): for every config — including one with an empty allow-list —
a path resolving under the engine's data directory is contained in the
allowed set, and the four filesystem operations on it succeed whenever the
tool has no risk override and the path matches no blocked-path pattern (so
such paths are never refused for being outside the allowed directories).
(The claim that nothing but the hardcoded patterns can block them fails
under a risk override, see the counterexample.) -/
theorem datadir_always_allowed (env : PathEnv) (cfg : PolicyConfig) (dataDir p : String)
    (hp : strStartsWith (resolvePath env p) (env.resolveAbs dataDir) = true) :
    isInAllowedDir env (mkPolicyEngine env cfg dataDir) (resolvePath env p) = true ∧
    (∀ tool,
      tool ∈ (["read_file", "write_file", "list_directory", "delete_file"] : List String) →
      ((mkPolicyEngine env cfg dataDir).config.risk_overrides.find? fun kv => kv.1 == tool) =
        none →
      isBlockedPath (resolvePath env p) = false →
      (evaluate env (mkPolicyEngine env cfg dataDir) tool [("path", p)]).allowed = true) := by
  have hin : isInAllowedDir env (mkPolicyEngine env cfg dataDir) (resolvePath env p) = true := by
    unfold isInAllowedDir mkPolicyEngine
    dsimp only
    rw [hp]
    simp
  refine ⟨hin, ?_⟩
  intro tool htool hov hb
  have hget : getArg [("path", p)] "path" = p := rfl
  simp only [List.mem_cons, List.mem_singleton, List.not_mem_nil, or_false] at htool
  rcases htool with rfl | rfl | rfl | rfl
  · rw [evaluate_read_eq env _ _ hov]
    unfold evaluateReadFile
    dsimp only
    rw [hget, hb, hin]
    simp only [Bool.not_true, Bool.false_eq_true, if_false]
    split <;> simp
  · rw [evaluate_write_eq env _ _ hov]
    unfold evaluateWriteFile
    dsimp only
    rw [hget, hb, hin]
    simp only [Bool.not_true, Bool.false_eq_true, if_false]
    split <;> simp
  · rw [evaluate_list_eq env _ _ hov]
    unfold evaluateListDirectory
    dsimp only
    rw [hget, hb, hin]
    simp
  · rw [evaluate_delete_eq env _ _ hov]
    unfold evaluateDeleteFile
    dsimp only
    rw [hget, hb, hin]
    simp

/-- Witness for C9 with an empty allow-list. -/
theorem datadir_always_allowed_witness :
    isInAllowedDir envDemo (mkPolicyEngine envDemo cfgNoDirs "/data")
      (resolvePath envDemo "/data/notes.md") = true ∧
    (evaluate envDemo (mkPolicyEngine envDemo cfgNoDirs "/data") "read_file"
      [("path", "/data/notes.md")]).allowed = true := by
  have h := datadir_always_allowed envDemo cfgNoDirs "/data" "/data/notes.md" (by decide)
  exact ⟨h.1, h.2 "read_file" (by decide) rfl (by decide)⟩

/-- C9 counterexample: a `blocked` risk override for `read_file` refuses a
path under the data directory even though no blocked-path pattern matches,
so the hardcoded patterns are not the only way such paths get blocked. -/
theorem datadir_override_block_cex :
    strStartsWith (resolvePath envDemo "/data/notes.md") (envDemo.resolveAbs "/data") = true ∧
    isBlockedPath (resolvePath envDemo "/data/notes.md") = false ∧
    (evaluate envDemo engOvData "read_file" [("path", "/data/notes.md")]).allowed = false ∧
    (evaluate envDemo engOvData "read_file" [("path", "/data/notes.md")]).risk =
      RiskLevel.blocked ∧
    (evaluate envDemo engOvData "read_file" [("path", "/data/notes.md")]).reason =
      "Blocked by risk override" := by
  decide

/-- C4 (amended): with no risk override for `run_command`, every command
whose **trimmed** form contains a hardcoded deny-listed substring is refused
as blocked under every configuration, and — with shell enabled and no
config-blocked substring matching them — `git status` and `ls -la` classify
as low risk without approval while `npm install express` classifies as
medium risk requiring approval.  (The claim as stated, over every command
*containing* a deny-listed substring, fails for the entry `"su "` because
the command is trimmed before matching; see the counterexample.) -/
theorem run_command_classification (env : PathEnv) (e : PolicyEngine)
    (hov : (e.config.risk_overrides.find? fun kv => kv.1 == "run_command") = none) :
    (∀ cmd b, b ∈ BLOCKED_COMMANDS → strContains (strTrim cmd) b = true →
      (evaluate env e "run_command" [("command", cmd)]).allowed = false ∧
      (evaluate env e "run_command" [("command", cmd)]).risk = RiskLevel.blocked) ∧
    (e.config.shell_enabled = true →
      (∀ b ∈ e.config.blocked_commands,
        strContains "git status" b = false ∧ strContains "ls -la" b = false ∧
        strContains "npm install express" b = false) →
      evaluate env e "run_command" [("command", "git status")] =
        ⟨true, RiskLevel.low, "Safe command: " ++ "git", false⟩ ∧
      evaluate env e "run_command" [("command", "ls -la")] =
        ⟨true, RiskLevel.low, "Safe command: " ++ "ls", false⟩ ∧
      evaluate env e "run_command" [("command", "npm install express")] =
        ⟨true, RiskLevel.medium, "Shell command: " ++ "npm install express", true⟩) := by
  constructor
  · intro cmd b hb hcont
    rw [evaluate_run_eq env e _ hov]
    unfold evaluateRunCommand
    dsimp only
    by_cases hs : e.config.shell_enabled = true
    · rw [hs]
      rw [show getArg [("command", cmd)] "command" = cmd from rfl]
      rcases hfind : BLOCKED_COMMANDS.find? fun b2 => strContains (strTrim cmd) b2 with _ | b2
      · exfalso
        rw [List.find?_eq_none] at hfind
        exact absurd hcont (by simpa using hfind b hb)
      · simp
    · rw [Bool.not_eq_true] at hs
      rw [hs]
      simp
  · intro hs hcfg
    have hc1 : (e.config.blocked_commands.find? fun b =>
        strContains (strTrim (getArg [("command", "git status")] "command")) b) = none :=
      List.find?_eq_none.mpr fun x hx => by simpa using (hcfg x hx).1
    have hc2 : (e.config.blocked_commands.find? fun b =>
        strContains (strTrim (getArg [("command", "ls -la")] "command")) b) = none :=
      List.find?_eq_none.mpr fun x hx => by simpa using (hcfg x hx).2.1
    have hc3 : (e.config.blocked_commands.find? fun b =>
        strContains (strTrim (getArg [("command", "npm install express")] "command")) b) = none :=
      List.find?_eq_none.mpr fun x hx => by simpa using (hcfg x hx).2.2
    refine ⟨?_, ?_, ?_⟩
    · rw [evaluate_run_eq env e _ hov]
      unfold evaluateRunCommand
      dsimp only
      rw [hs, hc1]
      decide
    · rw [evaluate_run_eq env e _ hov]
      unfold evaluateRunCommand
      dsimp only
      rw [hs, hc2]
      decide
    · rw [evaluate_run_eq env e _ hov]
      unfold evaluateRunCommand
      dsimp only
      rw [hs, hc3]
      decide

/-- Witness for C4 on the demo engine. -/
theorem run_command_classification_witness :
    (evaluate envDemo engDemo "run_command" [("command", "echo hi && sudo rm x")]).risk =
      RiskLevel.blocked ∧
    (evaluate envDemo engDemo "run_command" [("command", "git status")]).risk = RiskLevel.low ∧
    (evaluate envDemo engDemo "run_command" [("command", "ls -la")]).requiresApproval = false ∧
    (evaluate envDemo engDemo "run_command" [("command", "npm install express")]).requiresApproval =
      true := by
  have h := run_command_classification envDemo engDemo rfl
  have h1 := h.1 "echo hi && sudo rm x" "sudo" (by decide) (by decide)
  have h2 := h.2 rfl (by decide)
  exact ⟨h1.2, by rw [h2.1], by rw [h2.2.1], by rw [h2.2.2]⟩

/-- C4 counterexample: the command `"su "` contains the deny-listed
substring `"su "`, yet after trimming it no longer does, so it is classified
medium and allowed instead of blocked. -/
theorem blocked_command_trim_cex :
    "su " ∈ BLOCKED_COMMANDS ∧
    strContains "su " "su " = true ∧
    (evaluate envDemo engDemo "run_command" [("command", "su ")]).allowed = true ∧
    (evaluate envDemo engDemo "run_command" [("command", "su ")]).risk = RiskLevel.medium := by
  decide

/-- C5 (amended): with browser access enabled and no risk override for
`fetch_page`, the three probe URLs are blocked — `http://0x7f000001/`
because WHATWG URL parsing canonicalizes the hexadecimal host to the listed
alias `127.0.0.1`, exactly as the octal and large-decimal loopback
encodings `0177.0.0.1` and `2130706433` are — and malformed URLs (parse
failure, which includes out-of-range or ill-formed numeric hosts), the
`file:` scheme, the listed loopback aliases, link-local hosts, the RFC1918
prefixes (the code blocks all of `172.`, a superset of `172.16/12`) and
`.local` / `.internal` suffixes are all blocked.  (Numeric encodings that
canonicalize to any host *other than* a listed alias are fetched as safe —
`0x7f000002` is loopback `127.0.0.2` yet allowed — as are loopback
addresses other than the aliases; see the counterexample.) -/
theorem fetch_page_ssrf_blocked (env : PathEnv) (e : PolicyEngine)
    (hov : (e.config.risk_overrides.find? fun kv => kv.1 == "fetch_page") = none)
    (hbrowser : e.config.browser_enabled = true) :
    (∀ url, isSuspiciousUrl url = true →
      (evaluate env e "fetch_page" [("url", url)]).allowed = false ∧
      (evaluate env e "fetch_page" [("url", url)]).risk = RiskLevel.blocked) ∧
    (∀ url,
      url ∈ (["http://127.0.0.1/", "http://192.168.1.1/", "http://0x7f000001/",
        "http://2130706433/", "http://0177.0.0.1/", "http://0x7f.0.0.1/"] : List String) →
      (evaluate env e "fetch_page" [("url", url)]).allowed = false ∧
      (evaluate env e "fetch_page" [("url", url)]).risk = RiskLevel.blocked) ∧
    (parseUrl "http://0x7f000001/" = some ⟨"http:", "127.0.0.1"⟩ ∧
     parseUrl "http://2130706433/" = some ⟨"http:", "127.0.0.1"⟩ ∧
     parseUrl "http://0177.0.0.1/" = some ⟨"http:", "127.0.0.1"⟩) ∧
    (∀ url, parseUrl url = none → isSuspiciousUrl url = true) ∧
    (∀ url parts, parseUrl url = some parts →
      (parts.protocol = "file:" ∨
       (["localhost", "127.0.0.1", "0.0.0.0", "[::1]", "::1"] : List String).contains
         (strToLower parts.hostname) = true ∨
       strStartsWith (strToLower parts.hostname) "10." = true ∨
       strStartsWith (strToLower parts.hostname) "192.168." = true ∨
       strStartsWith (strToLower parts.hostname) "172." = true ∨
       strStartsWith (strToLower parts.hostname) "169.254." = true ∨
       octalHost (strToLower parts.hostname) = true ∨
       hexHost (strToLower parts.hostname) = true ∨
       bigDecHost (strToLower parts.hostname) = true ∨
       strEndsWith (strToLower parts.hostname) ".local" = true ∨
       strEndsWith (strToLower parts.hostname) ".internal" = true) →
      isSuspiciousUrl url = true) := by
  have hblocked : ∀ url, isSuspiciousUrl url = true →
      (evaluate env e "fetch_page" [("url", url)]).allowed = false ∧
      (evaluate env e "fetch_page" [("url", url)]).risk = RiskLevel.blocked := by
    intro url hsusp
    rw [evaluate_fetch_eq env e _ hov]
    unfold evaluateFetchPage
    dsimp only
    rw [hbrowser]
    rw [show getArg [("url", url)] "url" = url from rfl, hsusp]
    simp
  refine ⟨hblocked, ?_, by decide, ?_, ?_⟩
  · intro url hmem
    refine hblocked url ?_
    fin_cases hmem <;> decide
  · intro url hp
    unfold isSuspiciousUrl
    rw [hp]
  · intro url parts hp hdis
    unfold isSuspiciousUrl
    rw [hp]
    dsimp only
    rcases hdis with h | h | h | h | h | h | h | h | h | h | h
    all_goals first
      | (simp [h]; done)
      | (simp only [List.contains_eq_any_beq, List.any_cons, List.any_nil, Bool.or_eq_true,
          beq_iff_eq] at h
         rcases h with h | h | h | h | h | h <;>
           first
             | (simp [h]; done)
             | exact absurd h (by decide))

/-- Witness for C5 at the probe URLs, a large-decimal loopback encoding and
a malformed URL. -/
theorem fetch_page_ssrf_blocked_witness :
    (evaluate envDemo engDemo "fetch_page" [("url", "http://127.0.0.1/")]).risk =
      RiskLevel.blocked ∧
    (evaluate envDemo engDemo "fetch_page" [("url", "http://192.168.1.1/")]).risk =
      RiskLevel.blocked ∧
    (evaluate envDemo engDemo "fetch_page" [("url", "http://0x7f000001/")]).risk =
      RiskLevel.blocked ∧
    (evaluate envDemo engDemo "fetch_page" [("url", "http://2130706433/")]).risk =
      RiskLevel.blocked ∧
    (evaluate envDemo engDemo "fetch_page" [("url", "not a url")]).allowed = false := by
  have h := fetch_page_ssrf_blocked envDemo engDemo rfl rfl
  exact ⟨(h.2.1 _ (by decide)).2, (h.2.1 _ (by decide)).2, (h.2.1 _ (by decide)).2,
    (h.2.1 _ (by decide)).2,
    (h.1 "not a url" (h.2.2.2.1 "not a url" (by decide))).1⟩

/-- C5 counterexample: `0x7f000002` is a hexadecimal encoding of the
loopback address `127.0.0.2` (WHATWG canonicalization turns the host into
the dotted quad, which shares the `127.` loopback prefix), yet neither it
nor the dotted form is on any list, so both fetches are allowed as safe. -/
theorem loopback_127_0_0_2_allowed_cex :
    parseUrl "http://127.0.0.2/" = some ⟨"http:", "127.0.0.2"⟩ ∧
    parseUrl "http://0x7f000002/" = some ⟨"http:", "127.0.0.2"⟩ ∧
    strStartsWith "127.0.0.2" "127." = true ∧
    (evaluate envDemo engDemo "fetch_page" [("url", "http://127.0.0.2/")]).allowed = true ∧
    (evaluate envDemo engDemo "fetch_page" [("url", "http://127.0.0.2/")]).risk =
      RiskLevel.safe ∧
    (evaluate envDemo engDemo "fetch_page" [("url", "http://0x7f000002/")]).allowed = true ∧
    (evaluate envDemo engDemo "fetch_page" [("url", "http://0x7f000002/")]).risk =
      RiskLevel.safe := by
  decide

/-- Blocked and high decisions pass through `evaluateForTask` untouched,
whatever the task-mode state. -/
theorem evaluateForTask_passthrough (env : PathEnv) (e : PolicyEngine) (tool : String)
    (args : Args)
    (h : (evaluate env e tool args).risk = RiskLevel.blocked ∨
         (evaluate env e tool args).risk = RiskLevel.high) :
    evaluateForTask env e tool args = evaluate env e tool args := by
  unfold evaluateForTask
  dsimp only
  cases htm : e.taskMode with
  | none => rfl
  | some tm =>
    rcases h with h | h <;> rw [h] <;> simp

/-- In active task mode, a medium-risk approval-requiring decision whose
first path-like argument resolves to a string with the scope's working
directory as prefix is returned with approval cleared. -/
theorem evaluateForTask_elevate (env : PathEnv) (e : PolicyEngine) (tool : String)
    (args : Args) (tm : TaskModeScope) (htm : e.taskMode = some tm) (hact : tm.active = true)
    (hm : (evaluate env e tool args).risk = RiskLevel.medium)
    (hra : (evaluate env e tool args).requiresApproval = true)
    (hpz : firstNonEmpty [getArg args "path", getArg args "from", getArg args "savePath"] ≠ "")
    (hst : strStartsWith
      (resolvePath env (firstNonEmpty [getArg args "path", getArg args "from",
        getArg args "savePath"]))
      tm.workingDir = true) :
    evaluateForTask env e tool args =
      ⟨(evaluate env e tool args).allowed, (evaluate env e tool args).risk,
       (evaluate env e tool args).reason ++ " [auto-godkjent i oppgavemodus]", false⟩ := by
  unfold evaluateForTask
  dsimp only
  rw [htm]
  dsimp only
  rw [hact]
  rw [if_neg (by decide)]
  rw [if_neg (by rw [hm]; decide), if_neg (by rw [hm]; decide)]
  rw [if_pos (by rw [hra]; rw [hm]; decide)]
  rw [if_pos (by simp only [Bool.and_eq_true, bne_iff_ne, ne_eq]; exact ⟨hpz, hst⟩)]

/-- If `evaluateForTask` changed the decision at all, the path (or, for
`run_command`, cwd) argument resolved to a string with the scope's working
directory as prefix. -/
theorem evaluateForTask_scope_bound (env : PathEnv) (e : PolicyEngine) (tool : String)
    (args : Args) (tm : TaskModeScope) (htm : e.taskMode = some tm)
    (hch : evaluateForTask env e tool args ≠ evaluate env e tool args) :
    (firstNonEmpty [getArg args "path", getArg args "from", getArg args "savePath"] ≠ "" ∧
     strStartsWith
       (resolvePath env (firstNonEmpty [getArg args "path", getArg args "from",
         getArg args "savePath"]))
       tm.workingDir = true) ∨
    (tool = "run_command" ∧ getArg args "cwd" ≠ "" ∧
     strStartsWith (resolvePath env (getArg args "cwd")) tm.workingDir = true) := by
  unfold evaluateForTask at hch
  dsimp only at hch
  rw [htm] at hch
  dsimp only at hch
  split at hch
  · exact absurd rfl hch
  · split at hch
    · exact absurd rfl hch
    · split at hch
      · exact absurd rfl hch
      · split at hch
        · split at hch
          · next hcond =>
            have hc := (Bool.and_eq_true _ _).mp hcond
            exact Or.inl ⟨bne_iff_ne.mp hc.1, hc.2⟩
          · split at hch
            · next htool =>
              split at hch
              · next hcwd =>
                have hc := (Bool.and_eq_true _ _).mp hcwd
                exact Or.inr ⟨htool, bne_iff_ne.mp hc.1, hc.2⟩
              · exact absurd rfl hch
            · exact absurd rfl hch
        · exact absurd rfl hch

/-- C3 (amended): after `enterTaskMode(tid, D)`, a write to a non-blocked
allowed path whose resolved form has the resolved `D` as a string prefix is
returned with `requiresApproval = false`, while a delete of the same kind of
path keeps `requiresApproval = true` at high risk; blocked and high
decisions always pass through unchanged, and any decision that changes at
all had a path (or cwd) argument resolving to a string with the resolved `D`
as prefix.  (The claim that the elevation is bounded to paths resolving
*inside* `D` fails: plain string-prefix matching also elevates sibling paths
such as `D ++ "X"`, see the counterexample.) -/
theorem task_mode_elevation_scope (env : PathEnv) (e : PolicyEngine) (tid D : String) :
    (∀ px, px ≠ "" →
      ((enterTaskMode env e tid D).config.risk_overrides.find? fun kv =>
        kv.1 == "write_file") = none →
      (enterTaskMode env e tid D).config.require_approval_for_writes = true →
      isBlockedPath (resolvePath env px) = false →
      isInAllowedDir env (enterTaskMode env e tid D) (resolvePath env px) = true →
      strStartsWith (resolvePath env px) (resolvePath env D) = true →
      evaluateForTask env (enterTaskMode env e tid D) "write_file" [("path", px)] =
        ⟨true, RiskLevel.medium,
         ("Writing file: " ++ px) ++ " [auto-godkjent i oppgavemodus]", false⟩) ∧
    (∀ px,
      ((enterTaskMode env e tid D).config.risk_overrides.find? fun kv =>
        kv.1 == "delete_file") = none →
      isBlockedPath (resolvePath env px) = false →
      isInAllowedDir env (enterTaskMode env e tid D) (resolvePath env px) = true →
      (evaluateForTask env (enterTaskMode env e tid D) "delete_file"
        [("path", px)]).requiresApproval = true ∧
      (evaluateForTask env (enterTaskMode env e tid D) "delete_file"
        [("path", px)]).risk = RiskLevel.high) ∧
    (∀ tool args,
      (evaluate env (enterTaskMode env e tid D) tool args).risk = RiskLevel.blocked ∨
      (evaluate env (enterTaskMode env e tid D) tool args).risk = RiskLevel.high →
      evaluateForTask env (enterTaskMode env e tid D) tool args =
        evaluate env (enterTaskMode env e tid D) tool args) ∧
    (∀ tool args,
      evaluateForTask env (enterTaskMode env e tid D) tool args ≠
        evaluate env (enterTaskMode env e tid D) tool args →
      (firstNonEmpty [getArg args "path", getArg args "from", getArg args "savePath"] ≠ "" ∧
       strStartsWith
         (resolvePath env (firstNonEmpty [getArg args "path", getArg args "from",
           getArg args "savePath"]))
         (resolvePath env D) = true) ∨
      (tool = "run_command" ∧ getArg args "cwd" ≠ "" ∧
       strStartsWith (resolvePath env (getArg args "cwd")) (resolvePath env D) = true)) := by
  refine ⟨?_, ?_, ?_, ?_⟩
  · intro px hne hov hreq hb hin hst
    have hev : evaluate env (enterTaskMode env e tid D) "write_file" [("path", px)] =
        ⟨true, RiskLevel.medium, "Writing file: " ++ px, true⟩ := by
      rw [evaluate_write_eq env _ _ hov]
      unfold evaluateWriteFile
      dsimp only
      rw [show getArg [("path", px)] "path" = px from rfl, hb, hin, hreq]
      simp
    have hfne : firstNonEmpty [getArg [("path", px)] "path", getArg [("path", px)] "from",
        getArg [("path", px)] "savePath"] = px := by
      show firstNonEmpty [px, "", ""] = px
      unfold firstNonEmpty
      rw [if_neg hne]
    have h := evaluateForTask_elevate env (enterTaskMode env e tid D) "write_file"
      [("path", px)] ⟨true, resolvePath env D, tid⟩ rfl rfl
      (by rw [hev]) (by rw [hev]) (by rw [hfne]; exact hne) (by rw [hfne]; exact hst)
    rw [h, hev]
  · intro px hov hb hin
    have hdel : evaluate env (enterTaskMode env e tid D) "delete_file" [("path", px)] =
        ⟨true, RiskLevel.high, "Deleting: " ++ px, true⟩ := by
      rw [evaluate_delete_eq env _ _ hov]
      unfold evaluateDeleteFile
      dsimp only
      rw [show getArg [("path", px)] "path" = px from rfl, hb, hin]
      simp
    have h := evaluateForTask_passthrough env (enterTaskMode env e tid D) "delete_file"
      [("path", px)] (Or.inr (by rw [hdel]))
    rw [h, hdel]
    exact ⟨rfl, rfl⟩
  · exact fun tool args h =>
      evaluateForTask_passthrough env (enterTaskMode env e tid D) tool args h
  · exact fun tool args hch =>
      evaluateForTask_scope_bound env (enterTaskMode env e tid D) tool args
        ⟨true, resolvePath env D, tid⟩ rfl hch

/-- Witness for C3: inside the task directory the write is auto-elevated and
the delete still requires approval. -/
theorem task_mode_elevation_scope_witness :
    evaluateForTask envDemo engTask "write_file" [("path", "/home/u/proj/x")] =
      ⟨true, RiskLevel.medium,
       ("Writing file: " ++ "/home/u/proj/x") ++ " [auto-godkjent i oppgavemodus]", false⟩ ∧
    (evaluateForTask envDemo engTask "delete_file"
      [("path", "/home/u/proj/x")]).requiresApproval = true := by
  have h := task_mode_elevation_scope envDemo engDemo "t1" "/home/u/proj"
  exact ⟨h.1 "/home/u/proj/x" (by decide) rfl rfl (by decide) (by decide) (by decide),
    (h.2.1 "/home/u/proj/x" rfl (by decide) (by decide)).1⟩

/-- C3 counterexample: with task directory `/home/u/proj`, the sibling path
`/home/u/projX` resolves outside `D` (it is neither `D` itself nor under
`D ++ "/"`), yet its write approval requirement is removed because the
resolved string has `D` as a prefix. -/
theorem task_mode_prefix_escape_cex :
    resolvePath envDemo "/home/u/projX" ≠ resolvePath envDemo "/home/u/proj" ∧
    strStartsWith (resolvePath envDemo "/home/u/projX")
      (resolvePath envDemo "/home/u/proj" ++ "/") = false ∧
    (evaluate envDemo engTask "write_file" [("path", "/home/u/projX")]).requiresApproval =
      true ∧
    (evaluateForTask envDemo engTask "write_file" [("path", "/home/u/projX")]).requiresApproval =
      false := by
  decide

/-- C7 (amended): during `executeTask`, a step whose executor result carries
a rejection phrase and whose tool is `write_file` or `run_command` fails the
step, stops the loop — leaving every later step exactly as it was (pending),
not marked skipped — and fails the whole plan; a step whose tool has no
registered executor is marked failed on its own and execution continues with
the subsequent steps.  (The claim that later steps are marked `skipped`
fails: only `cancel` marks steps skipped, see the counterexample.) -/
theorem task_failure_handling (ee : ExecEnv) :
    (∀ wd tid i step rest runTool,
      ee.executors step.tool = some runTool →
      step.tool = "write_file" ∨ step.tool = "run_command" →
      isRejectionResult (runTool (stepExecArgs ee wd step)) = true →
      execSteps ee wd tid i (step :: rest) =
        ({ step with result := some (runTool (stepExecArgs ee wd step)),
                     error := some (runTool (stepExecArgs ee wd step)),
                     status := StepStatus.failed } :: rest,
         some ("Steg " ++ toString (i + 1) ++ " feilet: " ++
           runTool (stepExecArgs ee wd step)))) ∧
    (∀ task eMsg, (execSteps ee task.workingDir task.id 0 task.steps).2 = some eMsg →
      (executeTask ee task).status = TaskStatus.failed) ∧
    (∀ wd tid i step rest,
      step.tool ≠ "screenshot" →
      ee.executors step.tool = none →
      execSteps ee wd tid i (step :: rest) =
        ({ step with error := some ("Ukjent verktøy: " ++ step.tool),
                     status := StepStatus.failed } :: (execSteps ee wd tid (i + 1) rest).1,
         (execSteps ee wd tid (i + 1) rest).2)) := by
  refine ⟨?_, ?_, ?_⟩
  · intro wd tid i step rest runTool hexec hcrit hrej
    have hscr : ¬ step.tool = "screenshot" := by
      rcases hcrit with h | h <;> rw [h] <;> decide
    have hcritb : (decide (step.tool = "write_file") ||
        decide (step.tool = "run_command")) = true := by
      rcases hcrit with h | h <;> simp [h]
    unfold execSteps
    dsimp only
    rw [if_neg hscr, hexec]
    dsimp only
    rw [hrej]
    rw [if_pos rfl]
    rw [if_pos hcritb]
  · intro task eMsg hmsg
    unfold executeTask
    dsimp only
    rw [hmsg]
  · intro wd tid i step rest hscr hexec
    conv_lhs => unfold execSteps
    dsimp only
    rw [if_neg hscr, hexec]

/-- Witness for C7: the critical rejection breaks the loop with the tail
untouched, and the demo plan fails. -/
theorem task_failure_handling_witness :
    execSteps eeDemo "/home/u" "tid" 1 [stepWriteDemo, stepReadDemo2] =
      ({ stepWriteDemo with
           result := some (rejectWriteTool (stepExecArgs eeDemo "/home/u" stepWriteDemo)),
           error := some (rejectWriteTool (stepExecArgs eeDemo "/home/u" stepWriteDemo)),
           status := StepStatus.failed } :: [stepReadDemo2],
       some ("Steg " ++ toString (1 + 1) ++ " feilet: " ++
         rejectWriteTool (stepExecArgs eeDemo "/home/u" stepWriteDemo))) ∧
    (executeTask eeDemo planDemo).status = TaskStatus.failed :=
  ⟨(task_failure_handling eeDemo).1 "/home/u" "tid" 1 stepWriteDemo [stepReadDemo2]
     rejectWriteTool rfl (Or.inl rfl) (by decide),
   (task_failure_handling eeDemo).2.1 planDemo "Steg 2 feilet: Fikk ikke lov: avvist"
     (by decide)⟩

/-- C7 counterexample: the demo plan's second (write) step is rejected, the
plan fails, but the third step is left `pending`, not `skipped` (only
`cancelTask` produces skipped steps). -/
theorem critical_failure_steps_not_skipped_cex :
    (executeTask eeDemo planDemo).status = TaskStatus.failed ∧
    ((executeTask eeDemo planDemo).steps.map fun s => s.status) =
      [StepStatus.completed, StepStatus.failed, StepStatus.pending] ∧
    ((executeTask eeDemo planDemo).steps.map fun s => s.status) ≠
      [StepStatus.completed, StepStatus.failed, StepStatus.skipped] ∧
    ((cancelTask planDemo).steps.map fun s => s.status) =
      [StepStatus.skipped, StepStatus.skipped, StepStatus.skipped] := by
  decide

end Muninn
